import Mathlib

/-!
A verification development for the MP-Gadget3 core (cooling.c, gravtree.c, run.c).

Doubles are modelled as rationals (ℚ): the claims under study are about branch
structure, exact conservation identities and sign tests, all of which the C code
computes with +, -, *, / only, so the idealised field model is faithful; where the
C code calls a transcendental library function (log10, pow, sqrt) the embedding
takes that function as an explicit oracle parameter.  Division by zero in ℚ gives 0;
every theorem that depends on a quotient carries positivity hypotheses matching the
guards or the table construction of the C code.  The fatal `endrun` paths are
modelled by `Option`: `none` is process termination, `some` a normal return.
-/

namespace MPG

/-- physconst.h: HYDROGEN_MASSFRAC. -/
def HYDROGEN_MASSFRAC : ℚ := 0.76

/-- physconst.h: PROTONMASS (cgs). -/
def PROTONMASS : ℚ := 1.6726e-24

/-- cooling.c: YHELIUM = (1 - HYDROGEN_MASSFRAC) / (4 * HYDROGEN_MASSFRAC). -/
def YHELIUM : ℚ := (1 - HYDROGEN_MASSFRAC) / (4 * HYDROGEN_MASSFRAC)

/-- cooling.c: MAXITER. -/
def MAXITER : ℕ := 400

/-- cooling.c: SMALLNUM. -/
def SMALLNUM : ℚ := 1.0e-60

/-- cooling.c `struct abundance`: fractional number densities in units of nH. -/
structure Abundance where
  ne : ℚ
  nH0 : ℚ
  nHp : ℚ
  nHe0 : ℚ
  nHep : ℚ
  nHepp : ℚ
deriving DecidableEq

/-- cooling.c `struct rates`: interpolated rate coefficients. -/
structure Rates where
  aHp : ℚ
  aHep : ℚ
  aHepp : ℚ
  ad : ℚ
  geH0 : ℚ
  geHe0 : ℚ
  geHep : ℚ
  bH0 : ℚ
  bHep : ℚ
  bff : ℚ
deriving DecidableEq

/-- cooling.h `struct UVBG`: photoionization / photoheating rates and the
J_UV presence flag. -/
structure UVBG where
  gJH0 : ℚ
  gJHe0 : ℚ
  gJHep : ℚ
  epsH0 : ℚ
  epsHe0 : ℚ
  epsHep : ℚ
  J_UV : ℚ
deriving DecidableEq

/-- The ten read-only rate tables of cooling.c (BetaH0 ... GammaeHep), indexed by
the C int index; entries are abstract here because MakeCoolingTable fills them with
transcendental fits.  Nonnegativity of every fit is visible in the source
(products of exp, sqrt, pow of positive arguments) and is taken as a hypothesis
where a proof needs it. -/
structure CoolTables where
  AlphaHp : ℤ → ℚ
  AlphaHep : ℤ → ℚ
  AlphaHepp : ℤ → ℚ
  Alphad : ℤ → ℚ
  GammaeH0 : ℤ → ℚ
  GammaeHe0 : ℤ → ℚ
  GammaeHep : ℤ → ℚ
  BetaH0 : ℤ → ℚ
  BetaHep : ℤ → ℚ
  Betaff : ℤ → ℚ

/-- C cast `(int) t` of a double: truncation toward zero. -/
def ctrunc (t : ℚ) : ℤ := if 0 ≤ t then ⌊t⌋ else ⌈t⌉

/-- cooling.c: `flow * Tab[j] + fhi * Tab[j + 1]`, the linear interpolation applied
to every rate table. -/
def tableInterp (tab : ℤ → ℚ) (j : ℤ) (flow fhi : ℚ) : ℚ :=
  flow * tab j + fhi * tab (j + 1)

/-- cooling.c lines 343-352: the photoionization terms gJH0ne, gJHe0ne, gJHepne,
zeroed when `necgs <= 1.e-25 || uvbg->J_UV == 0`. -/
def photoTerms (uvbg : UVBG) (necgs : ℚ) : ℚ × ℚ × ℚ :=
  if necgs ≤ 1e-25 ∨ uvbg.J_UV = 0 then (0, 0, 0)
  else (uvbg.gJH0 / necgs, uvbg.gJHe0 / necgs, uvbg.gJHep / necgs)

/-- cooling.c lines 354-372: one pass of the ionization-balance loop body
(KWH eqns 33-38), computing the abundances from the current `necgs`.  The `ne`
field is set to `nHp + nHep + 2 * nHepp` (eqn 38). -/
def abundanceStep (r : Rates) (uvbg : UVBG) (necgs : ℚ) : Abundance :=
  let gJ := photoTerms uvbg necgs
  let gJH0ne := gJ.1
  let gJHe0ne := gJ.2.1
  let gJHepne := gJ.2.2
  let nH0 := r.aHp / (r.aHp + r.geH0 + gJH0ne)
  let nHp := 1 - nH0
  if gJHe0ne + r.geHe0 ≤ SMALLNUM then
    { ne := nHp + 0 + 2 * 0, nH0 := nH0, nHp := nHp, nHe0 := YHELIUM, nHep := 0, nHepp := 0 }
  else
    let nHep := YHELIUM /
      (1 + (r.aHep + r.ad) / (r.geHe0 + gJHe0ne) + (r.geHep + gJHepne) / r.aHepp)
    let nHe0 := nHep * (r.aHep + r.ad) / (r.geHe0 + gJHe0ne)
    let nHepp := nHep * (r.geHep + gJHepne) / r.aHepp
    { ne := nHp + nHep + 2 * nHepp, nH0 := nH0, nHp := nHp,
      nHe0 := nHe0, nHep := nHep, nHepp := nHepp }

/-- cooling.c lines 330-392: the electron-density fixed-point loop of
find_abundances_and_rates.  Arguments after the fixed ones: remaining fuel
(the loop in C is bounded by `niter < MAXITER`, so fuel = MAXITER is exact),
current `niter`, current `ne`, current `necgs`.  Returns the final abundances and
the number of passes executed; `none` is the `endrun(13, ...)` fatal exit taken
when the loop leaves with `niter >= MAXITER`. -/
def abundanceLoop (r : Rates) (uvbg : UVBG) (nHcgs : ℚ) :
    ℕ → ℕ → ℚ → ℚ → Option (Abundance × ℕ)
  | 0, _, _, _ => none
  | fuel + 1, niter, ne0, necgs =>
    let niter1 := niter + 1
    let y := abundanceStep r uvbg necgs
    let neold := ne0
    if uvbg.J_UV = 0 then
      if MAXITER ≤ niter1 then none else some (y, niter1)
    else
      let nenew := 0.5 * (y.ne + neold)
      let y1 := { y with ne := nenew }
      let necgs1 := nenew * nHcgs
      if |y1.ne - neold| < 1.0e-4 then
        if MAXITER ≤ niter1 then none else some (y1, niter1)
      else
        if niter1 < MAXITER then abundanceLoop r uvbg nHcgs fuel niter1 nenew necgs1
        else none

/-- cooling.c lines 296-305: the exactly-neutral closed form returned for
`logT <= Tmin`. -/
def neutralAbundance : Abundance :=
  { ne := 0, nH0 := 1, nHp := 0, nHe0 := YHELIUM, nHep := 0, nHepp := 0 }

/-- cooling.c lines 307-316: the fully-ionized closed form returned for
`logT >= Tmax`; `ne = nHp + 2 * nHepp`. -/
def ionizedAbundance : Abundance :=
  { ne := 1 + 2 * YHELIUM, nH0 := 0, nHp := 1, nHe0 := 0, nHep := 0, nHepp := YHELIUM }

/-- cooling.c lines 288-397: find_abundances_and_rates.  `Tmin`, `Tmax`, `deltaT`
are the file-scope globals; `y0` and `r0` are the structs of the caller passed by
reference (only `y0.ne` is read; on the two boundary early returns the rates
struct is returned untouched, exactly as the C code leaves it).  The extra ℕ in
the result counts the passes of the fixed-point loop (0 on the no-iteration
boundary paths).  `none` is the fatal non-convergence exit. -/
def find_abundances_and_rates (tab : CoolTables) (Tmin Tmax deltaT : ℚ)
    (logT nHcgs : ℚ) (uvbg : UVBG) (y0 : Abundance) (r0 : Rates) :
    Option (Abundance × Rates × ℕ) :=
  if logT ≤ Tmin then some (neutralAbundance, r0, 0)
  else if Tmax ≤ logT then some (ionizedAbundance, r0, 0)
  else
    let t := (logT - Tmin) / deltaT
    let j := ctrunc t
    let fhi := t - (j : ℚ)
    let flow := 1 - fhi
    let ne0 := if y0.ne = 0 then 1 else y0.ne
    let necgs := ne0 * nHcgs
    let r1 : Rates :=
      { r0 with
        aHp := tableInterp tab.AlphaHp j flow fhi
        aHep := tableInterp tab.AlphaHep j flow fhi
        aHepp := tableInterp tab.AlphaHepp j flow fhi
        ad := tableInterp tab.Alphad j flow fhi
        geH0 := tableInterp tab.GammaeH0 j flow fhi
        geHe0 := tableInterp tab.GammaeHe0 j flow fhi
        geHep := tableInterp tab.GammaeHep j flow fhi }
    match abundanceLoop r1 uvbg nHcgs MAXITER 0 ne0 necgs with
    | none => none
    | some (y, niter) =>
        some (y,
          { r1 with
            bH0 := tableInterp tab.BetaH0 j flow fhi
            bHep := tableInterp tab.BetaHep j flow fhi
            bff := tableInterp tab.Betaff j flow fhi }, niter)

/-- cooling.c `units_to_cgs`: the three code-to-cgs conversion factors. -/
structure UnitsToCgs where
  density : ℚ
  uu : ℚ
  time : ℚ
deriving DecidableEq

/-- cooling.c lines 873-896 (InitCool): the CoolingNoPrimordial flag.  Set when
cooling is off entirely, or when the TreeCool file name is empty
(`strlen(TreeCoolFile) == 0`), which only prints a message instead of raising an
error. -/
def initCoolNoPrimordial (CoolingOn : Bool) (TreeCoolFile : String) : Bool :=
  if !CoolingOn then true else TreeCoolFile.length == 0

/-- The empty TreeCool file name. -/
def emptyTreeCoolFile : String := ""

/-- cooling.c lines 149-153: the bracket-expansion while loop on `u_upper` in
DoCooling.  `rate u ne` stands for `CoolingRateFromU(u, ...)` with the updated
`*ne_guess` returned in the second component.  State: (u_upper, u_lower, ne).
The C loop has no iteration bound, hence the fuel; `none` models divergence. -/
def bracketHeating (rate : ℚ → ℚ → ℚ × ℚ) (u_old ratefact dt : ℚ) :
    ℕ → ℚ → ℚ → ℚ → Option (ℚ × ℚ × ℚ)
  | 0, _, _, _ => none
  | fuel + 1, u_upper, u_lower, ne0 =>
    let p := rate u_upper ne0
    if u_upper - u_old - ratefact * p.1 * dt < 0 then
      bracketHeating rate u_old ratefact dt fuel (u_upper * 1.1) (u_lower * 1.1) p.2
    else some (u_upper, u_lower, p.2)

/-- cooling.c lines 161-165: the bracket-expansion while loop on `u_lower` in
DoCooling.  State: (u_upper, u_lower, ne). -/
def bracketCooling (rate : ℚ → ℚ → ℚ × ℚ) (u_old ratefact dt : ℚ) :
    ℕ → ℚ → ℚ → ℚ → Option (ℚ × ℚ × ℚ)
  | 0, _, _, _ => none
  | fuel + 1, u_upper, u_lower, ne0 =>
    let p := rate u_lower ne0
    if u_lower - u_old - ratefact * p.1 * dt > 0 then
      bracketCooling rate u_old ratefact dt fuel (u_upper / 1.1) (u_lower / 1.1) p.2
    else some (u_upper, u_lower, p.2)

/-- cooling.c lines 168-195: the bisection do-while of DoCooling.  Arguments after
the fixed ones: fuel (MAXITER is exact, since the loop is bounded by
`iter < MAXITER`), current iter, u_lower, u_upper, ne.  `none` is the
`endrun(10, ...)` fatal exit taken when the loop leaves with `iter >= MAXITER`. -/
def bisectCooling (rate : ℚ → ℚ → ℚ × ℚ) (u_old ratefact dt : ℚ) :
    ℕ → ℕ → ℚ → ℚ → ℚ → Option ℚ
  | 0, _, _, _, _ => none
  | fuel + 1, iter, u_lower, u_upper, ne0 =>
    let u := 0.5 * (u_lower + u_upper)
    let p := rate u ne0
    let lohi := if u - u_old - ratefact * p.1 * dt > 0 then (u_lower, u) else (u, u_upper)
    let du := lohi.2 - lohi.1
    let iter1 := iter + 1
    if |du / u| > 1.0e-6 ∧ iter1 < MAXITER then
      bisectCooling rate u_old ratefact dt fuel iter1 lohi.1 lohi.2 p.2
    else if MAXITER ≤ iter1 then none
    else some u

/-- cooling.c lines 120-200: DoCooling.  `sqrt11` stands for the double constant
`sqrt(1.1)`; `bfuel` is the fuel of the two unbounded bracket loops; `rate`
stands for `CoolingRateFromU` at the fixed density, UV background, metallicity
and time of the call, threading the `*ne_guess` state.  Returns the new internal
energy in code units, or `none` on a fatal non-convergence exit.  Note the first
line: when `CoolingNoPrimordial` is set the function returns 0, not `u_old`. -/
def DoCooling (noPrimordial : Bool) (units : UnitsToCgs) (sqrt11 : ℚ) (bfuel : ℕ)
    (rate : ℚ → ℚ → ℚ × ℚ) (u_old rho dt ne : ℚ) : Option ℚ :=
  if noPrimordial then some 0
  else
    let rhoc := rho * units.density
    let uoldc := u_old * units.uu
    let dtc := dt * units.time
    let nHcgs := HYDROGEN_MASSFRAC * rhoc / PROTONMASS
    let ratefact := nHcgs * nHcgs / rhoc
    let u := uoldc
    let p0 := rate u ne
    let resid := u - uoldc - ratefact * p0.1 * dtc
    let st1 : Option (ℚ × ℚ × ℚ) :=
      if resid < 0 then
        bracketHeating rate uoldc ratefact dtc bfuel (u * sqrt11) (u / sqrt11) p0.2
      else some (u, u, p0.2)
    match st1 with
    | none => none
    | some s1 =>
      let st2 : Option (ℚ × ℚ × ℚ) :=
        if resid > 0 then
          bracketCooling rate uoldc ratefact dtc bfuel (s1.1 * sqrt11) (s1.2.1 / sqrt11) s1.2.2
        else some s1
      match st2 with
      | none => none
      | some s2 =>
        match bisectCooling rate uoldc ratefact dtc MAXITER 0 s2.2.1 s2.1 s2.2.2 with
        | none => none
        | some ufinal => some (ufinal / units.uu)

/-- cooling.c lines 207-236: GetCoolingTime.  `rate` stands for
`CoolingRateFromU` as in `DoCooling`.  Returns 0 when cooling is disabled or when
the net rate at `u_old` is nonnegative, otherwise `u / (-ratefact * LambdaNet)`
converted back to code units. -/
def GetCoolingTime (noPrimordial : Bool) (units : UnitsToCgs)
    (rate : ℚ → ℚ → ℚ × ℚ) (u_old rho ne : ℚ) : ℚ :=
  if noPrimordial then 0
  else
    let rhoc := rho * units.density
    let uoldc := u_old * units.uu
    let nHcgs := HYDROGEN_MASSFRAC * rhoc / PROTONMASS
    let ratefact := nHcgs * nHcgs / rhoc
    let p := rate uoldc ne
    if 0 ≤ p.1 then 0
    else uoldc / (-ratefact * p.1) / units.time

/-- gravtree.c lines 430-461 (force_treeev_shortrange): the opening decision for
an internal node that survived the rcut test.  `true` means the walk descends
into the cell (`no = nop->u.d.nextnode`); `false` means it falls through toward
the point-mass use (`no = nop->u.d.sibling`, after the softening checks).
`len` is the node size, `r2` the squared distance, `dcx dcy dcz` the components
of `nop->center - pos`, `aold = All.ErrTolForceAcc * input->OldAcc`. -/
def shortrangeOpensCell (errTolTheta len r2 mass aold dcx dcy dcz : ℚ) : Bool :=
  if errTolTheta ≠ 0 then
    decide (len * len > r2 * errTolTheta * errTolTheta)
  else
    if mass * len * len > r2 * r2 * aold then true
    else decide (|dcx| < 0.60 * len ∧ |dcy| < 0.60 * len ∧ |dcz| < 0.60 * len)

/-- cooling.c: the seven columns of the TREECOOL table (file-scope arrays
inlogz, gH0, gHe, gHep, eH0, eHe, eHep). -/
structure IonizeTable where
  inlogz : ℕ → ℚ
  gH0 : ℕ → ℚ
  gHe : ℕ → ℚ
  gHep : ℕ → ℚ
  eH0 : ℕ → ℚ
  eHe : ℕ → ℚ
  eHep : ℕ → ℚ

/-- The all-zero UVBG produced by `memset(&GlobalUVBG, 0, sizeof(GlobalUVBG))`. -/
def zeroUVBG : UVBG :=
  { gJH0 := 0, gJHe0 := 0, gJHep := 0, epsH0 := 0, epsHe0 := 0, epsHep := 0, J_UV := 0 }

/-- cooling.c: JAMPL. -/
def JAMPL : ℚ := 1.0

/-- cooling.c lines 843-850: the scan for `ilow`, the last index reached from 0
with `inlogz[i] < logz` (the loop breaks at the first failure).  Arguments after
the fixed ones: remaining entries, current i, current ilow. -/
def ilowScan (inlogz : ℕ → ℚ) (logz : ℚ) : ℕ → ℕ → ℕ → ℕ
  | 0, _, ilow => ilow
  | k + 1, i, ilow => if inlogz i < logz then ilowScan inlogz logz k (i + 1) i else ilow

/-- cooling.c lines 863-868: one log-log interpolated rate,
`JAMPL * pow(10., (dzhi * log10(lo) + dzlow * log10(hi)) / (dzlow + dzhi))`,
with log10 and pow(10, .) as oracles. -/
def logLogInterp (log10 pow10 : ℚ → ℚ) (dzlow dzhi lo hi : ℚ) : ℚ :=
  JAMPL * pow10 ((dzhi * log10 lo + dzlow * log10 hi) / (dzlow + dzhi))

/-- cooling.c lines 855: the guard condition of IonizeParamsTable that zeroes the
global UVBG, as a Bool.  (With `nheattab = 0` the C read `inlogz[nheattab - 1]`
is out of bounds; the guard still fires through its last disjunct, which the ℕ
model preserves.) -/
def uvGuard (tbl : IonizeTable) (nheattab : ℕ) (logz : ℚ) : Bool :=
  let ilow := ilowScan tbl.inlogz logz nheattab 0 0
  decide (logz > tbl.inlogz (nheattab - 1) ∨ tbl.gH0 ilow = 0 ∨
    tbl.gH0 (ilow + 1) = 0 ∨ nheattab = 0)

/-- cooling.c lines 834-871: IonizeParamsTable.  Computes the redshift from the
scale factor `Time`, scans for the bracketing rows, and either zeroes the global
UVBG (guard) or sets `J_UV = 1.e-21` and log-log-interpolates the six rates. -/
def IonizeParamsTable (log10 pow10 : ℚ → ℚ) (tbl : IonizeTable) (nheattab : ℕ)
    (Time : ℚ) : UVBG :=
  let redshift := 1 / Time - 1
  let logz := log10 (redshift + 1.0)
  let ilow := ilowScan tbl.inlogz logz nheattab 0 0
  let dzlow := logz - tbl.inlogz ilow
  let dzhi := tbl.inlogz (ilow + 1) - logz
  if logz > tbl.inlogz (nheattab - 1) ∨ tbl.gH0 ilow = 0 ∨
      tbl.gH0 (ilow + 1) = 0 ∨ nheattab = 0 then
    zeroUVBG
  else
    { J_UV := 1.e-21
      gJH0 := logLogInterp log10 pow10 dzlow dzhi (tbl.gH0 ilow) (tbl.gH0 (ilow + 1))
      gJHe0 := logLogInterp log10 pow10 dzlow dzhi (tbl.gHe ilow) (tbl.gHe (ilow + 1))
      gJHep := logLogInterp log10 pow10 dzlow dzhi (tbl.gHep ilow) (tbl.gHep (ilow + 1))
      epsH0 := logLogInterp log10 pow10 dzlow dzhi (tbl.eH0 ilow) (tbl.eH0 (ilow + 1))
      epsHe0 := logLogInterp log10 pow10 dzlow dzhi (tbl.eHe ilow) (tbl.eHe (ilow + 1))
      epsHep := logLogInterp log10 pow10 dzlow dzhi (tbl.eHep ilow) (tbl.eHep (ilow + 1)) }

/-- cooling.c lines 578-581 (MakeCoolingTable): the lower log-temperature bound,
`Tmin = log10(0.1 * MinGasTemp)` when `MinGasTemp > 0`, else `Tmin = 1.0`;
log10 as an oracle. -/
def makeCoolingTableTmin (log10 : ℚ → ℚ) (MinGasTemp : ℚ) : ℚ :=
  if MinGasTemp > 0.0 then log10 (0.1 * MinGasTemp) else 1.0

/-- run.c lines 221-232 (find_next_sync_point_and_drift): the loop marking the
active timebins and accumulating NumForceUpdate.  `markActiveBins counts ti T`
returns (the TimeBinActive array for bins 0..T-1, NumForceUpdate) for
`TIMEBINS = T` and `ti_next_kick_global = ti`; bin 0 is marked active
unconditionally in the loop header, bin n > 0 when `ti % (1 << n) == 0`. -/
def markActiveBins (counts : ℕ → ℕ) (ti : ℕ) : ℕ → List Bool × ℕ
  | 0 => ([], 0)
  | 1 => ([true], counts 0)
  | n + 2 =>
    let p := markActiveBins counts ti (n + 1)
    if ti % 2 ^ (n + 1) = 0 then (p.1 ++ [true], p.2 + counts (n + 1))
    else (p.1 ++ [false], p.2)

/-- Trivial all-zero cooling tables, for concrete instantiations. -/
def trivTables : CoolTables :=
  { AlphaHp := fun _ => 0, AlphaHep := fun _ => 0, AlphaHepp := fun _ => 0
    Alphad := fun _ => 0, GammaeH0 := fun _ => 0, GammaeHe0 := fun _ => 0
    GammaeHep := fun _ => 0, BetaH0 := fun _ => 0, BetaHep := fun _ => 0
    Betaff := fun _ => 0 }

/-- An all-zero rates struct, for concrete instantiations. -/
def trivRates : Rates :=
  { aHp := 0, aHep := 0, aHepp := 0, ad := 0, geH0 := 0, geHe0 := 0, geHep := 0
    bH0 := 0, bHep := 0, bff := 0 }

/-- Helper: with no UV background the fixed-point loop breaks at the bottom of its
first pass (cooling.c lines 374-375), returning the single-pass abundances. -/
theorem abundanceLoop_noUV (r : Rates) (uvbg : UVBG) (nHcgs : ℚ)
    (fuel niter : ℕ) (ne0 necgs : ℚ) (hJ : uvbg.J_UV = 0) (hn : niter + 1 < MAXITER) :
    abundanceLoop r uvbg nHcgs (fuel + 1) niter ne0 necgs =
      some (abundanceStep r uvbg necgs, niter + 1) := by
  simp [abundanceLoop, hJ, Nat.not_le.mpr hn]

/-- Helper: the linear table interpolation is nonnegative for a nonnegative table
and nonnegative weights. -/
theorem tableInterp_nonneg (tabf : ℤ → ℚ) (ht : ∀ i, 0 ≤ tabf i) (j : ℤ)
    (flow fhi : ℚ) (hf : 0 ≤ flow) (hh : 0 ≤ fhi) : 0 ≤ tableInterp tabf j flow fhi :=
  add_nonneg (mul_nonneg hf (ht j)) (mul_nonneg hh (ht (j + 1)))

/-- Helper: the helium photoionization terms are nonnegative whenever the UV
background rates are: either the guard zeroes them, or `necgs > 1.e-25 > 0`. -/
theorem photoTerms_snd_nonneg (uvbg : UVBG) (necgs : ℚ)
    (h2 : 0 ≤ uvbg.gJHe0) (h3 : 0 ≤ uvbg.gJHep) :
    0 ≤ (photoTerms uvbg necgs).2.1 ∧ 0 ≤ (photoTerms uvbg necgs).2.2 := by
  unfold photoTerms
  split
  · simp
  · rename_i hcond
    push_neg at hcond
    have hpos : (0:ℚ) < necgs := lt_trans (by norm_num) hcond.1
    exact ⟨div_nonneg h2 hpos.le, div_nonneg h3 hpos.le⟩

/-- Helper: the algebraic identity behind helium conservation in KWH eqns 35-37:
with a positive first denominator and nonnegative numerators the three helium
states sum back to the total Y.  (The a3 = 0 case goes through because ℚ division
by zero is zero on both sides.) -/
theorem heSumAlgebra (Y s1 d1 s2 a3 : ℚ) (hd1 : 0 < d1) (hs1 : 0 ≤ s1)
    (hs2 : 0 ≤ s2) (ha3 : 0 ≤ a3) :
    Y / (1 + s1 / d1 + s2 / a3) * s1 / d1 + Y / (1 + s1 / d1 + s2 / a3) +
      Y / (1 + s1 / d1 + s2 / a3) * s2 / a3 = Y := by
  have hA : 0 ≤ s1 / d1 := div_nonneg hs1 hd1.le
  have hB : 0 ≤ s2 / a3 := div_nonneg hs2 ha3
  have hDne : 1 + s1 / d1 + s2 / a3 ≠ 0 := ne_of_gt (by linarith)
  calc Y / (1 + s1 / d1 + s2 / a3) * s1 / d1 + Y / (1 + s1 / d1 + s2 / a3) +
      Y / (1 + s1 / d1 + s2 / a3) * s2 / a3
      = Y / (1 + s1 / d1 + s2 / a3) * (1 + s1 / d1 + s2 / a3) := by
        rw [mul_div_assoc, mul_div_assoc]; ring
    _ = Y := div_mul_cancel₀ Y hDne

/-- Helper: every pass of the loop body conserves hydrogen exactly,
`nH0 + nHp = 1` (KWH eqns 33-34). -/
theorem abundanceStep_sumH (r : Rates) (uvbg : UVBG) (necgs : ℚ) :
    (abundanceStep r uvbg necgs).nH0 + (abundanceStep r uvbg necgs).nHp = 1 := by
  unfold abundanceStep
  dsimp only
  split <;> dsimp only <;> ring

/-- Helper: every pass of the loop body conserves helium exactly,
`nHe0 + nHep + nHepp = YHELIUM` (KWH eqns 35-37), given nonnegative rate
coefficients and UV rates. -/
theorem abundanceStep_sumHe (r : Rates) (uvbg : UVBG) (necgs : ℚ)
    (haHep : 0 ≤ r.aHep) (had : 0 ≤ r.ad) (haHepp : 0 ≤ r.aHepp) (hgeHep : 0 ≤ r.geHep)
    (h2 : 0 ≤ uvbg.gJHe0) (h3 : 0 ≤ uvbg.gJHep) :
    (abundanceStep r uvbg necgs).nHe0 + (abundanceStep r uvbg necgs).nHep +
      (abundanceStep r uvbg necgs).nHepp = YHELIUM := by
  obtain ⟨hg2, hg3⟩ := photoTerms_snd_nonneg uvbg necgs h2 h3
  unfold abundanceStep
  dsimp only
  split
  · dsimp only; ring
  · rename_i hguard
    dsimp only
    have hS : (0:ℚ) < SMALLNUM := by norm_num [SMALLNUM]
    have hd1 : 0 < r.geHe0 + (photoTerms uvbg necgs).2.1 := by
      have := not_le.mp hguard
      linarith
    exact heSumAlgebra YHELIUM (r.aHep + r.ad) (r.geHe0 + (photoTerms uvbg necgs).2.1)
      (r.geHep + (photoTerms uvbg necgs).2.2) r.aHepp hd1
      (add_nonneg haHep had) (add_nonneg hgeHep hg3) haHepp

/-- Helper: whatever state the fixed-point loop of find_abundances_and_rates
returns (any fuel, any starting point), the returned abundances satisfy both
conservation sums exactly, because every exit returns the state computed by the
last body pass. -/
theorem abundanceLoop_conservation (r : Rates) (uvbg : UVBG) (nHcgs : ℚ)
    (haHep : 0 ≤ r.aHep) (had : 0 ≤ r.ad) (haHepp : 0 ≤ r.aHepp) (hgeHep : 0 ≤ r.geHep)
    (h2 : 0 ≤ uvbg.gJHe0) (h3 : 0 ≤ uvbg.gJHep) :
    ∀ fuel niter ne0 necgs y k,
      abundanceLoop r uvbg nHcgs fuel niter ne0 necgs = some (y, k) →
      y.nH0 + y.nHp = 1 ∧ y.nHe0 + y.nHep + y.nHepp = YHELIUM := by
  intro fuel
  induction fuel with
  | zero =>
    intro niter ne0 necgs y k h
    simp [abundanceLoop] at h
  | succ n ih =>
    intro niter ne0 necgs y k h
    simp only [abundanceLoop] at h
    split at h
    · split at h
      · simp at h
      · simp only [Option.some.injEq, Prod.mk.injEq] at h
        obtain ⟨hy, -⟩ := h
        subst hy
        exact ⟨abundanceStep_sumH r uvbg necgs,
          abundanceStep_sumHe r uvbg necgs haHep had haHepp hgeHep h2 h3⟩
    · split at h
      · split at h
        · simp at h
        · simp only [Option.some.injEq, Prod.mk.injEq] at h
          obtain ⟨hy, -⟩ := h
          subst hy
          constructor
          · simpa using abundanceStep_sumH r uvbg necgs
          · simpa using abundanceStep_sumHe r uvbg necgs haHep had haHepp hgeHep h2 h3
      · split at h
        · exact ih _ _ _ _ _ h
        · simp at h

/-- Claim C2: every call of find_abundances_and_rates that returns (no fatal
exit) produces abundances with `nH0 + nHp = 1` and
`nHe0 + nHep + nHepp = YHELIUM` exactly, hence well within the 1e-8 floating
tolerance, for any temperature, density, UV background and initial guess.
The nonnegativity hypotheses on four rate tables and the two helium UV rates
reflect how MakeCoolingTable and the TREECOOL reader fill them (all fits are
products of nonnegative factors). -/
theorem find_abundances_and_rates_conservation (tab : CoolTables)
    (Tmin Tmax deltaT logT nHcgs : ℚ) (uvbg : UVBG) (y0 : Abundance) (r0 : Rates)
    (y : Abundance) (rr : Rates) (k : ℕ)
    (hdT : 0 < deltaT)
    (htHep : ∀ i, 0 ≤ tab.AlphaHep i) (htad : ∀ i, 0 ≤ tab.Alphad i)
    (htHepp : ∀ i, 0 ≤ tab.AlphaHepp i) (htgeHep : ∀ i, 0 ≤ tab.GammaeHep i)
    (h2 : 0 ≤ uvbg.gJHe0) (h3 : 0 ≤ uvbg.gJHep)
    (h : find_abundances_and_rates tab Tmin Tmax deltaT logT nHcgs uvbg y0 r0 =
      some (y, rr, k)) :
    (y.nH0 + y.nHp = 1 ∧ y.nHe0 + y.nHep + y.nHepp = YHELIUM) ∧
    |y.nH0 + y.nHp - 1| ≤ 1e-8 ∧ |y.nHe0 + y.nHep + y.nHepp - YHELIUM| ≤ 1e-8 := by
  have main : y.nH0 + y.nHp = 1 ∧ y.nHe0 + y.nHep + y.nHepp = YHELIUM := by
    unfold find_abundances_and_rates at h
    by_cases hb1 : logT ≤ Tmin
    · rw [if_pos hb1] at h
      simp only [Option.some.injEq, Prod.mk.injEq] at h
      obtain ⟨hy, -⟩ := h
      subst hy
      constructor <;> norm_num [neutralAbundance]
    · rw [if_neg hb1] at h
      by_cases hb2 : Tmax ≤ logT
      · rw [if_pos hb2] at h
        simp only [Option.some.injEq, Prod.mk.injEq] at h
        obtain ⟨hy, -⟩ := h
        subst hy
        constructor <;> norm_num [ionizedAbundance]
      · rw [if_neg hb2] at h
        dsimp only at h
        have hlt : Tmin < logT := not_le.mp hb1
        have ht0 : 0 ≤ (logT - Tmin) / deltaT := div_nonneg (by linarith) hdT.le
        have hjq : ctrunc ((logT - Tmin) / deltaT) = ⌊(logT - Tmin) / deltaT⌋ :=
          if_pos ht0
        set t := (logT - Tmin) / deltaT with htdef
        set fhi := t - ((ctrunc t : ℤ) : ℚ) with hfhidef
        have hfhi : 0 ≤ fhi := by
          rw [hfhidef, hjq]
          exact sub_nonneg.mpr (Int.floor_le t)
        have hflow : 0 ≤ 1 - fhi := by
          rw [hfhidef, hjq]
          have := Int.lt_floor_add_one t
          linarith
        split at h
        · exact absurd h (by simp)
        · rename_i a nn heq
          simp only [Option.some.injEq, Prod.mk.injEq] at h
          obtain ⟨hy, -⟩ := h
          subst hy
          refine abundanceLoop_conservation _ uvbg nHcgs ?_ ?_ ?_ ?_ h2 h3
            MAXITER 0 _ _ a nn heq
          · exact tableInterp_nonneg _ htHep _ _ _ hflow hfhi
          · exact tableInterp_nonneg _ htad _ _ _ hflow hfhi
          · exact tableInterp_nonneg _ htHepp _ _ _ hflow hfhi
          · exact tableInterp_nonneg _ htgeHep _ _ _ hflow hfhi
  refine ⟨main, ?_, ?_⟩
  · rw [main.1]; norm_num
  · rw [main.2]; norm_num

/-- Witness for C2: a concrete converging in-range no-UV call whose returned
abundances satisfy both sums. -/
theorem find_abundances_and_rates_conservation_witness :
    ∃ y rr,
      find_abundances_and_rates trivTables 1 9 1 2 1 zeroUVBG neutralAbundance
          trivRates = some (y, rr, 1) ∧
      (y.nH0 + y.nHp = 1 ∧ y.nHe0 + y.nHep + y.nHepp = YHELIUM) := by
  refine ⟨{ ne := 1, nH0 := 0, nHp := 1, nHe0 := YHELIUM, nHep := 0, nHepp := 0 },
    trivRates, ?_⟩
  have h : find_abundances_and_rates trivTables 1 9 1 2 1 zeroUVBG
      neutralAbundance trivRates =
      some ({ ne := 1, nH0 := 0, nHp := 1, nHe0 := YHELIUM, nHep := 0, nHepp := 0 },
        trivRates, 1) := by
    unfold find_abundances_and_rates
    rw [if_neg (by norm_num), if_neg (by norm_num)]
    dsimp only
    rw [show MAXITER = 399 + 1 from rfl,
      abundanceLoop_noUV _ _ _ _ _ _ _ rfl (by norm_num [MAXITER])]
    norm_num [abundanceStep, photoTerms, zeroUVBG, SMALLNUM, tableInterp, trivTables,
      trivRates, neutralAbundance, ctrunc]
  refine ⟨h, ?_⟩
  exact (find_abundances_and_rates_conservation trivTables 1 9 1 2 1 zeroUVBG
    neutralAbundance trivRates _ _ _ (by norm_num) (fun _ => le_refl 0)
    (fun _ => le_refl 0) (fun _ => le_refl 0) (fun _ => le_refl 0)
    (le_refl 0) (le_refl 0) h).1

/-- Claim C1: for every temperature at or below the tabulated minimum
(`logT <= Tmin`) find_abundances_and_rates returns the exactly neutral state
(nH0 = 1, nHe0 = YHELIUM, nHp = nHep = nHepp = 0, ne = 0), and for every
temperature at or above the tabulated maximum (`logT >= Tmax`) the exactly fully
ionized state (nHp = 1, nHepp = YHELIUM, nH0 = nHe0 = nHep = 0,
ne = nHp + 2 * nHepp), in closed form with zero loop passes and no fatal exit,
for any density, UV background, tables and initial guess. -/
theorem find_abundances_and_rates_boundary (tab : CoolTables)
    (Tmin Tmax deltaT logT nHcgs : ℚ) (uvbg : UVBG) (y0 : Abundance) (r0 : Rates) :
    (logT ≤ Tmin →
      find_abundances_and_rates tab Tmin Tmax deltaT logT nHcgs uvbg y0 r0 =
        some (neutralAbundance, r0, 0)) ∧
    (Tmin < Tmax → Tmax ≤ logT →
      find_abundances_and_rates tab Tmin Tmax deltaT logT nHcgs uvbg y0 r0 =
        some (ionizedAbundance, r0, 0)) ∧
    neutralAbundance.nH0 = 1 ∧ neutralAbundance.nHe0 = YHELIUM ∧
    neutralAbundance.nHp = 0 ∧ neutralAbundance.nHep = 0 ∧
    neutralAbundance.nHepp = 0 ∧ neutralAbundance.ne = 0 ∧
    ionizedAbundance.nHp = 1 ∧ ionizedAbundance.nHepp = YHELIUM ∧
    ionizedAbundance.nH0 = 0 ∧ ionizedAbundance.nHe0 = 0 ∧ ionizedAbundance.nHep = 0 ∧
    ionizedAbundance.ne = ionizedAbundance.nHp + 2 * ionizedAbundance.nHepp := by
  refine ⟨?_, ?_, rfl, rfl, rfl, rfl, rfl, rfl, rfl, rfl, rfl, rfl, rfl, rfl⟩
  · intro h
    simp [find_abundances_and_rates, h]
  · intro hTT h
    have h1 : ¬ logT ≤ Tmin := not_le.mpr (lt_of_lt_of_le hTT h)
    simp [find_abundances_and_rates, h1, h]

/-- Witness for C1: a neutral call at logT = 0 (below Tmin = 1) and an ionized
call at logT = 10 (above Tmax = 9), both returning the closed forms. -/
theorem find_abundances_and_rates_boundary_witness :
    find_abundances_and_rates trivTables 1 9 (1/250) 0 1 zeroUVBG neutralAbundance trivRates =
      some (neutralAbundance, trivRates, 0) ∧
    find_abundances_and_rates trivTables 1 9 (1/250) 10 1 zeroUVBG neutralAbundance trivRates =
      some (ionizedAbundance, trivRates, 0) :=
  ⟨(find_abundances_and_rates_boundary trivTables 1 9 (1/250) 0 1 zeroUVBG
      neutralAbundance trivRates).1 (by norm_num),
   (find_abundances_and_rates_boundary trivTables 1 9 (1/250) 10 1 zeroUVBG
      neutralAbundance trivRates).2.1 (by norm_num) (by norm_num)⟩

/-- Claim C10: for a temperature strictly inside the tabulated range, an input
electron-fraction guess of exactly 0 is silently replaced by 1.0
(cooling.c lines 323-324), so the call produces literally the same output
(abundances, rates and pass count) as a guess of 1. -/
theorem find_abundances_and_rates_zero_guess (tab : CoolTables)
    (Tmin Tmax deltaT logT nHcgs : ℚ) (uvbg : UVBG) (y0 y1 : Abundance) (r0 : Rates)
    (hlo : Tmin < logT) (hhi : logT < Tmax) (h0 : y0.ne = 0) (h1 : y1.ne = 1) :
    find_abundances_and_rates tab Tmin Tmax deltaT logT nHcgs uvbg y0 r0 =
      find_abundances_and_rates tab Tmin Tmax deltaT logT nHcgs uvbg y1 r0 := by
  simp [find_abundances_and_rates, h0, h1, not_le.mpr hlo, not_le.mpr hhi]

/-- Witness for C10: a concrete in-range call with guess 0 equals the call with
guess 1. -/
theorem find_abundances_and_rates_zero_guess_witness :
    find_abundances_and_rates trivTables 1 9 (1/250) 2 1 zeroUVBG neutralAbundance trivRates =
      find_abundances_and_rates trivTables 1 9 (1/250) 2 1 zeroUVBG
        { neutralAbundance with ne := 1 } trivRates :=
  find_abundances_and_rates_zero_guess trivTables 1 9 (1/250) 2 1 zeroUVBG
    neutralAbundance { neutralAbundance with ne := 1 } trivRates
    (by norm_num) (by norm_num) rfl rfl

/-- Claim C7: with no UV background (`uvbg.J_UV = 0`) and a temperature strictly
inside the tabulated range, the electron-density fixed-point loop of
find_abundances_and_rates exits after exactly one pass (the break at cooling.c
lines 374-375 fires before any convergence test), with no fatal exit. -/
theorem find_abundances_and_rates_noUV_single_pass (tab : CoolTables)
    (Tmin Tmax deltaT logT nHcgs : ℚ) (uvbg : UVBG) (y0 : Abundance) (r0 : Rates)
    (hlo : Tmin < logT) (hhi : logT < Tmax) (hJ : uvbg.J_UV = 0) :
    ∃ y r1, find_abundances_and_rates tab Tmin Tmax deltaT logT nHcgs uvbg y0 r0 =
      some (y, r1, 1) := by
  unfold find_abundances_and_rates
  rw [if_neg (not_le.mpr hlo), if_neg (not_le.mpr hhi)]
  dsimp only
  rw [show MAXITER = 399 + 1 from rfl,
    abundanceLoop_noUV _ _ _ _ _ _ _ hJ (by norm_num [MAXITER])]
  exact ⟨_, _, rfl⟩

/-- Witness for C7: a concrete no-UV in-range call returns with pass count 1. -/
theorem find_abundances_and_rates_noUV_single_pass_witness :
    ∃ y r1,
      find_abundances_and_rates trivTables 1 9 (1/250) 2 1 zeroUVBG neutralAbundance
        trivRates = some (y, r1, 1) :=
  find_abundances_and_rates_noUV_single_pass trivTables 1 9 (1/250) 2 1 zeroUVBG
    neutralAbundance trivRates (by norm_num) (by norm_num) rfl

/-- Claim C3, counterexample: with cooling disabled through an empty TreeCool
file name, DoCooling called with u_old = 5 returns `some 0`, not
`some u_old = some 5`: the claimed no-op (`u_new = u_old`) is false on the code
(cooling.c line 122 is `return 0`, not `return u_old`). -/
theorem DoCooling_disabled_not_identity :
    DoCooling (initCoolNoPrimordial true emptyTreeCoolFile) ⟨1, 1, 1⟩ 1 10 (fun _ ne => (0, ne))
        5 1 1 1 = some 0 ∧
    (some (5:ℚ) : Option ℚ) ≠ some 0 := by
  constructor
  · rfl
  · simp

/-- Claim C3 (amended): when InitCool is given an empty TreeCool file name it
sets the CoolingNoPrimordial flag — a "feature disabled" sentinel, not an error —
and with that flag DoCooling silently returns 0 (not the unchanged u_old) for
every input, with no fatal exit. -/
theorem DoCooling_disabled_returns_zero (units : UnitsToCgs) (sqrt11 : ℚ)
    (bfuel : ℕ) (rate : ℚ → ℚ → ℚ × ℚ) (u_old rho dt ne : ℚ) :
    initCoolNoPrimordial true emptyTreeCoolFile = true ∧
    DoCooling (initCoolNoPrimordial true emptyTreeCoolFile) units sqrt11 bfuel rate u_old rho dt ne =
      some 0 := by
  constructor
  · rfl
  · simp [DoCooling, initCoolNoPrimordial, emptyTreeCoolFile]

/-- Claim C4: GetCoolingTime returns exactly 0 whenever the net rate evaluated
at u_old is nonnegative (cooling.c lines 228-229); a nonzero (positive) cooling
time is only computed when the rate is strictly negative, and under the physical
positivity of the unit factors, density and internal energy the returned time is
then strictly positive. -/
theorem GetCoolingTime_sign (units : UnitsToCgs) (rate : ℚ → ℚ → ℚ × ℚ)
    (u_old rho ne : ℚ) :
    (0 ≤ (rate (u_old * units.uu) ne).1 →
      GetCoolingTime false units rate u_old rho ne = 0) ∧
    (0 < GetCoolingTime false units rate u_old rho ne →
      (rate (u_old * units.uu) ne).1 < 0) ∧
    ((rate (u_old * units.uu) ne).1 < 0 → 0 < units.density → 0 < units.uu →
      0 < units.time → 0 < rho → 0 < u_old →
      0 < GetCoolingTime false units rate u_old rho ne) := by
  refine ⟨?_, ?_, ?_⟩
  · intro hL
    simp [GetCoolingTime, hL]
  · intro hpos
    by_contra hc
    push_neg at hc
    have h0 : GetCoolingTime false units rate u_old rho ne = 0 := by
      simp [GetCoolingTime, hc]
    rw [h0] at hpos
    exact lt_irrefl 0 hpos
  · intro hL hd hu ht hrho huold
    have hne : ¬ (0 ≤ (rate (u_old * units.uu) ne).1) := not_le.mpr hL
    have hrhoc : 0 < rho * units.density := mul_pos hrho hd
    have hnH : 0 < HYDROGEN_MASSFRAC * (rho * units.density) / PROTONMASS :=
      div_pos (mul_pos (by norm_num [HYDROGEN_MASSFRAC]) hrhoc)
        (by norm_num [PROTONMASS])
    have hrf : 0 < HYDROGEN_MASSFRAC * (rho * units.density) / PROTONMASS *
        (HYDROGEN_MASSFRAC * (rho * units.density) / PROTONMASS) /
        (rho * units.density) := div_pos (mul_pos hnH hnH) hrhoc
    have hden : 0 < -(HYDROGEN_MASSFRAC * (rho * units.density) / PROTONMASS *
        (HYDROGEN_MASSFRAC * (rho * units.density) / PROTONMASS) /
        (rho * units.density)) * (rate (u_old * units.uu) ne).1 := by
      have h1 := mul_pos hrf (neg_pos.mpr hL)
      nlinarith [h1]
    simp only [GetCoolingTime]
    rw [if_neg (by simp), if_neg hne]
    exact div_pos (div_pos (mul_pos huold hu) hden) ht

/-- Witness for C4: a heating call returns 0; a cooling call returns a strictly
positive time. -/
theorem GetCoolingTime_sign_witness :
    GetCoolingTime false ⟨1, 1, 1⟩ (fun _ _ => (1, 0)) 2 3 0 = 0 ∧
    0 < GetCoolingTime false ⟨1, 1, 1⟩ (fun _ _ => (-1, 0)) 1 1 0 :=
  ⟨(GetCoolingTime_sign ⟨1, 1, 1⟩ (fun _ _ => (1, 0)) 2 3 0).1 (by norm_num),
   (GetCoolingTime_sign ⟨1, 1, 1⟩ (fun _ _ => (-1, 0)) 1 1 0).2.2 (by norm_num)
     (by norm_num) (by norm_num) (by norm_num) (by norm_num) (by norm_num)⟩

/-- Claim C5, counterexample: with the Barnes-Hut criterion active
(ErrTolTheta = 1) and a node exactly at the opening threshold
(len = 1, r2 = 1, hence len * len = r2 * theta * theta), the short-range walk
does NOT open the cell: the strict `>` at gravtree.c line 432 fails at equality,
so the node is accepted as a point-mass leaf, contradicting the claim that the
walk must descend. -/
theorem bh_threshold_not_opened :
    (1 : ℚ) * 1 = 1 * 1 * 1 ∧
    shortrangeOpensCell 1 1 1 1 1 1 1 1 = false := by
  constructor
  · norm_num
  · norm_num [shortrangeOpensCell]

/-- Claim C5 (amended): with the Barnes-Hut criterion active the short-range
walk opens a cell iff `node_size² > r² · θ²` holds strictly; a node exactly at
the threshold is NOT opened (it is accepted as a point-mass leaf). -/
theorem bh_opening_strict (errTolTheta len r2 mass aold dcx dcy dcz : ℚ)
    (hth : errTolTheta ≠ 0) :
    (shortrangeOpensCell errTolTheta len r2 mass aold dcx dcy dcz = true ↔
      len * len > r2 * errTolTheta * errTolTheta) ∧
    (len * len = r2 * errTolTheta * errTolTheta →
      shortrangeOpensCell errTolTheta len r2 mass aold dcx dcy dcz = false) := by
  constructor
  · simp [shortrangeOpensCell, hth]
  · intro he
    simp [shortrangeOpensCell, hth, he]

/-- Witness for C5 (amended): a node strictly above the threshold is opened, a
node exactly at the threshold is not. -/
theorem bh_opening_strict_witness :
    shortrangeOpensCell 1 2 1 1 1 1 1 1 = true ∧
    shortrangeOpensCell 1 1 2 1 1 1 1 1 = false :=
  ⟨(bh_opening_strict 1 2 1 1 1 1 1 1 (by norm_num)).1.mpr (by norm_num),
   by
    have h := (bh_opening_strict 1 1 2 1 1 1 1 1 (by norm_num)).1
    by_contra hc
    have : (1:ℚ) * 1 > 2 * 1 * 1 := h.mp (by simpa using hc)
    norm_num at this⟩

/-- Claim C6: IonizeParamsTable zeroes the whole global UVBG (all six rate
fields and J_UV = 0) exactly when the cooling.c line 855 guard fires — the time
maps to a logz above the highest tabulated inlogz entry, or a bracketing gH0 entry
is zero, or the table is empty — and otherwise sets J_UV = 1.e-21 (nonzero) and
log-log-interpolates the six rates between the bracketing rows ilow, ilow + 1. -/
theorem IonizeParamsTable_guard_spec (log10 pow10 : ℚ → ℚ) (tbl : IonizeTable)
    (nheattab : ℕ) (Time : ℚ) :
    (uvGuard tbl nheattab (log10 (1 / Time - 1 + 1.0)) = true →
      IonizeParamsTable log10 pow10 tbl nheattab Time = zeroUVBG ∧
      zeroUVBG.gJH0 = 0 ∧ zeroUVBG.gJHe0 = 0 ∧ zeroUVBG.gJHep = 0 ∧
      zeroUVBG.epsH0 = 0 ∧ zeroUVBG.epsHe0 = 0 ∧ zeroUVBG.epsHep = 0 ∧
      zeroUVBG.J_UV = 0) ∧
    (uvGuard tbl nheattab (log10 (1 / Time - 1 + 1.0)) = false →
      (IonizeParamsTable log10 pow10 tbl nheattab Time).J_UV = 1.e-21 ∧
      (1.e-21 : ℚ) ≠ 0 ∧
      (IonizeParamsTable log10 pow10 tbl nheattab Time).gJH0 =
        logLogInterp log10 pow10
          (log10 (1 / Time - 1 + 1.0) -
            tbl.inlogz (ilowScan tbl.inlogz (log10 (1 / Time - 1 + 1.0)) nheattab 0 0))
          (tbl.inlogz
              (ilowScan tbl.inlogz (log10 (1 / Time - 1 + 1.0)) nheattab 0 0 + 1) -
            log10 (1 / Time - 1 + 1.0))
          (tbl.gH0 (ilowScan tbl.inlogz (log10 (1 / Time - 1 + 1.0)) nheattab 0 0))
          (tbl.gH0
            (ilowScan tbl.inlogz (log10 (1 / Time - 1 + 1.0)) nheattab 0 0 + 1)) ∧
      (IonizeParamsTable log10 pow10 tbl nheattab Time).gJHe0 =
        logLogInterp log10 pow10
          (log10 (1 / Time - 1 + 1.0) -
            tbl.inlogz (ilowScan tbl.inlogz (log10 (1 / Time - 1 + 1.0)) nheattab 0 0))
          (tbl.inlogz
              (ilowScan tbl.inlogz (log10 (1 / Time - 1 + 1.0)) nheattab 0 0 + 1) -
            log10 (1 / Time - 1 + 1.0))
          (tbl.gHe (ilowScan tbl.inlogz (log10 (1 / Time - 1 + 1.0)) nheattab 0 0))
          (tbl.gHe
            (ilowScan tbl.inlogz (log10 (1 / Time - 1 + 1.0)) nheattab 0 0 + 1)) ∧
      (IonizeParamsTable log10 pow10 tbl nheattab Time).gJHep =
        logLogInterp log10 pow10
          (log10 (1 / Time - 1 + 1.0) -
            tbl.inlogz (ilowScan tbl.inlogz (log10 (1 / Time - 1 + 1.0)) nheattab 0 0))
          (tbl.inlogz
              (ilowScan tbl.inlogz (log10 (1 / Time - 1 + 1.0)) nheattab 0 0 + 1) -
            log10 (1 / Time - 1 + 1.0))
          (tbl.gHep (ilowScan tbl.inlogz (log10 (1 / Time - 1 + 1.0)) nheattab 0 0))
          (tbl.gHep
            (ilowScan tbl.inlogz (log10 (1 / Time - 1 + 1.0)) nheattab 0 0 + 1)) ∧
      (IonizeParamsTable log10 pow10 tbl nheattab Time).epsH0 =
        logLogInterp log10 pow10
          (log10 (1 / Time - 1 + 1.0) -
            tbl.inlogz (ilowScan tbl.inlogz (log10 (1 / Time - 1 + 1.0)) nheattab 0 0))
          (tbl.inlogz
              (ilowScan tbl.inlogz (log10 (1 / Time - 1 + 1.0)) nheattab 0 0 + 1) -
            log10 (1 / Time - 1 + 1.0))
          (tbl.eH0 (ilowScan tbl.inlogz (log10 (1 / Time - 1 + 1.0)) nheattab 0 0))
          (tbl.eH0
            (ilowScan tbl.inlogz (log10 (1 / Time - 1 + 1.0)) nheattab 0 0 + 1)) ∧
      (IonizeParamsTable log10 pow10 tbl nheattab Time).epsHe0 =
        logLogInterp log10 pow10
          (log10 (1 / Time - 1 + 1.0) -
            tbl.inlogz (ilowScan tbl.inlogz (log10 (1 / Time - 1 + 1.0)) nheattab 0 0))
          (tbl.inlogz
              (ilowScan tbl.inlogz (log10 (1 / Time - 1 + 1.0)) nheattab 0 0 + 1) -
            log10 (1 / Time - 1 + 1.0))
          (tbl.eHe (ilowScan tbl.inlogz (log10 (1 / Time - 1 + 1.0)) nheattab 0 0))
          (tbl.eHe
            (ilowScan tbl.inlogz (log10 (1 / Time - 1 + 1.0)) nheattab 0 0 + 1)) ∧
      (IonizeParamsTable log10 pow10 tbl nheattab Time).epsHep =
        logLogInterp log10 pow10
          (log10 (1 / Time - 1 + 1.0) -
            tbl.inlogz (ilowScan tbl.inlogz (log10 (1 / Time - 1 + 1.0)) nheattab 0 0))
          (tbl.inlogz
              (ilowScan tbl.inlogz (log10 (1 / Time - 1 + 1.0)) nheattab 0 0 + 1) -
            log10 (1 / Time - 1 + 1.0))
          (tbl.eHep (ilowScan tbl.inlogz (log10 (1 / Time - 1 + 1.0)) nheattab 0 0))
          (tbl.eHep
            (ilowScan tbl.inlogz (log10 (1 / Time - 1 + 1.0)) nheattab 0 0 + 1))) := by
  constructor
  · intro hg
    simp only [uvGuard, decide_eq_true_eq] at hg
    refine ⟨?_, rfl, rfl, rfl, rfl, rfl, rfl, rfl⟩
    unfold IonizeParamsTable
    dsimp only
    rw [if_pos hg]
  · intro hg
    simp only [uvGuard, decide_eq_false_iff_not] at hg
    unfold IonizeParamsTable
    dsimp only
    rw [if_neg hg]
    exact ⟨rfl, by norm_num, rfl, rfl, rfl, rfl, rfl, rfl⟩

/-- Witness for C6: an empty table returns the all-zero UVBG; a 2-row table with
nonzero gH0 at an in-range redshift returns J_UV = 1.e-21. -/
theorem IonizeParamsTable_guard_spec_witness :
    IonizeParamsTable (fun _ => 0) (fun _ => 0)
      ⟨fun _ => 0, fun _ => 0, fun _ => 0, fun _ => 0, fun _ => 0, fun _ => 0,
        fun _ => 0⟩ 0 1 = zeroUVBG ∧
    (IonizeParamsTable (fun _ => 1/2) (fun q => q)
      ⟨fun i => (i : ℚ), fun _ => 1, fun _ => 0, fun _ => 0, fun _ => 0, fun _ => 0,
        fun _ => 0⟩ 2 1).J_UV = 1.e-21 :=
  ⟨((IonizeParamsTable_guard_spec (fun _ => 0) (fun _ => 0)
      ⟨fun _ => 0, fun _ => 0, fun _ => 0, fun _ => 0, fun _ => 0, fun _ => 0,
        fun _ => 0⟩ 0 1).1 (by norm_num [uvGuard, ilowScan])).1,
   ((IonizeParamsTable_guard_spec (fun _ => 1/2) (fun q => q)
      ⟨fun i => (i : ℚ), fun _ => 1, fun _ => 0, fun _ => 0, fun _ => 0, fun _ => 0,
        fun _ => 0⟩ 2 1).2 (by norm_num [uvGuard, ilowScan])).1⟩

/-- Claim C8: MakeCoolingTable sets Tmin = log10(0.1 * MinGasTemp) whenever
MinGasTemp > 0 and Tmin = 1.0 when MinGasTemp is zero or negative; in
particular MinGasTemp = 0 gives Tmin = 1.0, and since 0.1 * 100 = 10 exactly and
log10(10) = 1, MinGasTemp = 100 also gives Tmin = 1.0 exactly. -/
theorem MakeCoolingTable_Tmin_spec (log10 : ℚ → ℚ) (MinGasTemp : ℚ) :
    (MinGasTemp > 0 →
      makeCoolingTableTmin log10 MinGasTemp = log10 (0.1 * MinGasTemp)) ∧
    (¬ MinGasTemp > 0 → makeCoolingTableTmin log10 MinGasTemp = 1) ∧
    makeCoolingTableTmin log10 0 = 1 ∧
    (log10 10 = 1 → makeCoolingTableTmin log10 100 = 1) := by
  refine ⟨?_, ?_, by norm_num [makeCoolingTableTmin], ?_⟩
  · intro h
    have h0 : MinGasTemp > (0.0 : ℚ) := by
      rw [show (0.0 : ℚ) = 0 from by norm_num]
      exact h
    unfold makeCoolingTableTmin
    rw [if_pos h0]
  · intro h
    have h0 : ¬ MinGasTemp > (0.0 : ℚ) := by
      rw [show (0.0 : ℚ) = 0 from by norm_num]
      exact h
    unfold makeCoolingTableTmin
    rw [if_neg h0]
    norm_num
  · intro h10
    have h : makeCoolingTableTmin log10 100 = log10 (0.1 * 100) := by
      norm_num [makeCoolingTableTmin]
    rw [h, show (0.1 * 100 : ℚ) = 10 by norm_num, h10]

/-- Witness for C8: with an oracle satisfying log10(10) = 1, MinGasTemp = 0,
MinGasTemp = 100 and a negative MinGasTemp all give Tmin = 1. -/
theorem MakeCoolingTable_Tmin_spec_witness :
    makeCoolingTableTmin (fun _ => 1) 0 = 1 ∧
    makeCoolingTableTmin (fun _ => 1) 100 = 1 ∧
    makeCoolingTableTmin (fun _ => 1) (-5) = 1 :=
  ⟨(MakeCoolingTable_Tmin_spec (fun _ => 1) 0).2.2.1,
   (MakeCoolingTable_Tmin_spec (fun _ => 1) 100).2.2.2 rfl,
   (MakeCoolingTable_Tmin_spec (fun _ => 1) (-5)).2.1 (by norm_num)⟩

/-- Helper: structural characterisation of the bin-marking loop of
find_next_sync_point_and_drift: length of the active array, the per-bin active
bit, and the accumulated NumForceUpdate. -/
theorem markActiveBins_spec (counts : ℕ → ℕ) (ti : ℕ) :
    ∀ T, 1 ≤ T →
      (markActiveBins counts ti T).1.length = T ∧
      (∀ n, n < T → (markActiveBins counts ti T).1.getD n false =
        (if n = 0 then true else decide (ti % 2 ^ n = 0))) ∧
      (markActiveBins counts ti T).2 =
        ∑ m ∈ Finset.range T, if m = 0 ∨ 2 ^ m ∣ ti then counts m else 0 := by
  intro T
  induction T with
  | zero => intro h; exact absurd h (by norm_num)
  | succ T ih =>
    intro _
    rcases T with _ | T1
    · refine ⟨rfl, ?_, ?_⟩
      · intro n hn
        interval_cases n
        rfl
      · simp [markActiveBins]
    · obtain ⟨ihlen, ihget, ihsum⟩ := ih (by omega)
      have hstep : markActiveBins counts ti (T1 + 2) =
          (if ti % 2 ^ (T1 + 1) = 0 then
            ((markActiveBins counts ti (T1 + 1)).1 ++ [true],
              (markActiveBins counts ti (T1 + 1)).2 + counts (T1 + 1))
          else
            ((markActiveBins counts ti (T1 + 1)).1 ++ [false],
              (markActiveBins counts ti (T1 + 1)).2)) := by
        simp only [markActiveBins]
      by_cases hdiv : ti % 2 ^ (T1 + 1) = 0
      · rw [hstep, if_pos hdiv]
        refine ⟨by simp [ihlen], ?_, ?_⟩
        · intro n hn
          rcases Nat.lt_or_ge n (T1 + 1) with hlt | hge
          · rw [List.getD_append _ _ _ _ (by rw [ihlen]; exact hlt)]
            exact ihget n hlt
          · have heq : n = T1 + 1 := by omega
            subst heq
            rw [List.getD_append_right _ _ _ _ ihlen.le]
            simp [ihlen, hdiv]
        · rw [Finset.sum_range_succ, ihsum]
          have : (T1 + 1 = 0 ∨ 2 ^ (T1 + 1) ∣ ti) := Or.inr
            (Nat.dvd_iff_mod_eq_zero.mpr hdiv)
          rw [if_pos this]
      · rw [hstep, if_neg hdiv]
        refine ⟨by simp [ihlen], ?_, ?_⟩
        · intro n hn
          rcases Nat.lt_or_ge n (T1 + 1) with hlt | hge
          · rw [List.getD_append _ _ _ _ (by rw [ihlen]; exact hlt)]
            exact ihget n hlt
          · have heq : n = T1 + 1 := by omega
            subst heq
            rw [List.getD_append_right _ _ _ _ ihlen.le]
            simp [ihlen, hdiv]
        · rw [Finset.sum_range_succ, ihsum]
          have : ¬ (T1 + 1 = 0 ∨ 2 ^ (T1 + 1) ∣ ti) := by
            rintro (h | h)
            · omega
            · exact hdiv (Nat.dvd_iff_mod_eq_zero.mp h)
          rw [if_neg this]
          omega

/-- Claim C9: after find_next_sync_point_and_drift chooses the global sync time
ti, timebin 0 is always marked active; bin n (0 < n < TIMEBINS) is marked active
iff `2^n` divides ti (the `ti % (1 << n) == 0` test of run.c line 225); and the
NumForceUpdate accumulated by the loop is exactly the sum of the per-bin counts
over the active bins. -/
theorem find_next_sync_active_bins (counts : ℕ → ℕ) (ti T n : ℕ)
    (hT : 1 ≤ T) (hn : n < T) :
    ((markActiveBins counts ti T).1.getD 0 false = true) ∧
    ((markActiveBins counts ti T).1.getD n false = true ↔ (n = 0 ∨ 2 ^ n ∣ ti)) ∧
    (markActiveBins counts ti T).2 =
      ∑ m ∈ Finset.range T, if m = 0 ∨ 2 ^ m ∣ ti then counts m else 0 := by
  obtain ⟨hlen, hget, hsum⟩ := markActiveBins_spec counts ti T hT
  refine ⟨?_, ?_, hsum⟩
  · rw [hget 0 (by omega)]
    simp
  · rw [hget n hn]
    by_cases h0 : n = 0
    · simp [h0]
    · simp [h0, Nat.dvd_iff_mod_eq_zero]

/-- Witness for C9: T = 4 bins, ti = 4: bins 0, 1, 2 are active (2 and 4 divide
4, 8 does not), and NumForceUpdate is the sum over the active bins. -/
theorem find_next_sync_active_bins_witness :
    ((markActiveBins (fun m => m + 1) 4 4).1.getD 0 false = true) ∧
    ((markActiveBins (fun m => m + 1) 4 4).1.getD 2 false = true ↔
      (2 = 0 ∨ 2 ^ 2 ∣ 4)) ∧
    (markActiveBins (fun m => m + 1) 4 4).2 =
      ∑ m ∈ Finset.range 4, if m = 0 ∨ 2 ^ m ∣ 4 then (fun m => m + 1) m else 0 :=
  find_next_sync_active_bins (fun m => m + 1) 4 4 2 (by norm_num) (by norm_num)

end MPG
